import Mathlib

/-!
# Verification of the FileCompress Pro job-orchestration core

Shallow embedding of the batch-compression orchestrator and the
progress-broadcast channel of the `file-compressor` backend.

* `src/utils/fileUtils.js` — `calculateCompressionRatio`, `getFileSize`,
  `getFileTypeCategory`, `SUPPORTED_TYPES`;
* `src/services/compressionService.js` — `compressBatch`, `createArchive`,
  the batch-level progress emissions, and the size/ratio tail of
  `compressImage`;
* `src/server.js` (WebSocket utilities) — `setupWebSocket`'s `join-job` /
  `leave-job` room handling, `emitProgress`, `emitStatus`.

JavaScript `Math.round` is modelled as `jsRound` (round half toward +∞);
arithmetic on sizes is exact (`Nat`/`Int`/`ℚ`), matching the integer byte
counts the code manipulates.  Fallible operations (`fs.stat`, the codec
capabilities, `archiver`) are passed in as explicit outcome values, and a
JavaScript `throw` escaping a function is an `Except.error`.
-/

/-- JavaScript `Math.round`: rounds half toward positive infinity,
`Math.round x = ⌊x + 1/2⌋`. -/
def jsRound (q : ℚ) : ℤ := ⌊q + 1 / 2⌋

/-- `calculateCompressionRatio` (src/utils/fileUtils.js:93-96):
`if (originalSize === 0) return 0; return Math.round(((originalSize -
compressedSize) / originalSize) * 100);`. -/
def calculateCompressionRatio (originalSize compressedSize : ℤ) : ℤ :=
  if originalSize = 0 then 0
  else jsRound (((originalSize : ℚ) - (compressedSize : ℚ)) / (originalSize : ℚ) * 100)

/-- `getFileSize` (src/utils/fileUtils.js:67-75): `try { return (await
fs.stat(filePath)).size } catch { return 0 }`.  The stat outcome is the
argument: `some n` when `fs.stat` succeeds with size `n`, `none` when it
throws (missing or inaccessible file). -/
def getFileSize (statResult : Option Nat) : Nat :=
  match statResult with
  | some n => n
  | none => 0

/-- Suffix of the character list starting at its last `'.'`, if any. -/
def extnameCore : List Char → Option (List Char)
  | [] => none
  | c :: rest =>
    match extnameCore rest with
    | some e => some e
    | none => if c = '.' then some (c :: rest) else none

/-- Node `path.extname` on a basename: the substring from the last `'.'`,
empty when there is no dot or the only dot is the leading character (hidden
files such as `.bashrc` have no extension).  Dot-only names like `".."` are
not special-cased; they do not occur as uploaded filenames. -/
def extname (s : String) : String :=
  match s.data with
  | [] => ""
  | _ :: rest =>
    match extnameCore rest with
    | some e => String.mk e
    | none => ""

/-- JavaScript `toLowerCase` on one character, for the ASCII range the
file extensions live in: `'A'..'Z'` maps to `'a'..'z'`, everything else is
unchanged. -/
def jsToLowerChar (c : Char) : Char :=
  if 'A' ≤ c ∧ c ≤ 'Z' then Char.ofNat (c.toNat + 32) else c

/-- JavaScript `String.prototype.toLowerCase` (ASCII range). -/
def jsToLower (s : String) : String := String.mk (s.data.map jsToLowerChar)

/-- `SUPPORTED_TYPES` (src/utils/fileUtils.js:8-13), in object insertion
order. -/
def SUPPORTED_TYPES : List (String × List String) :=
  [("images", [".jpg", ".jpeg", ".png", ".webp", ".tiff", ".tif", ".bmp"]),
   ("videos", [".mp4", ".avi", ".mov", ".wmv", ".flv", ".webm", ".mkv", ".m4v"]),
   ("audio", [".mp3", ".wav", ".flac", ".aac", ".ogg", ".m4a", ".wma"]),
   ("documents", [".pdf"])]

/-- `getFileTypeCategory` (src/utils/fileUtils.js:33-43): lower-cases the
extension, returns the first category of `SUPPORTED_TYPES` containing it,
else `"unknown"`. -/
def getFileTypeCategory (filename : String) : String :=
  let ext := jsToLower (extname filename)
  match SUPPORTED_TYPES.find? (fun p => p.2.contains ext) with
  | some p => p.1
  | none => "unknown"

/-- The result object a per-category compressor resolves with
(`compressImage`/`compressVideo`/`compressAudio`/`compressPDF`): sizes in
bytes, the ratio it computed, and the output path. -/
structure CompressionResult where
  originalSize : Nat
  compressedSize : Nat
  compressionRatio : ℤ
  compressedPath : String
deriving Repr, DecidableEq

deriving instance DecidableEq for Except

/-- One input file of a batch: its client-visible filename and the outcome
of the dispatched transcoder capability for it (`Except.error m` models the
capability throwing with message `m`). -/
structure BatchFile where
  filename : String
  capability : Except String CompressionResult
deriving Repr, DecidableEq

/-- One entry of `compressBatch`'s `results` array: either a compressor
result tagged with `originalFilename`, or the failure record
`{originalFilename, error, failed: true}`. -/
inductive FileEntry where
  | success (originalFilename : String) (r : CompressionResult)
  | failure (originalFilename : String) (error : String)
deriving Repr, DecidableEq

/-- The `failed` flag of a results entry. -/
def FileEntry.failed : FileEntry → Bool
  | .success _ _ => false
  | .failure _ _ => true

/-- `f.originalSize || 0` as read by the batch route's totals. -/
def FileEntry.origSize : FileEntry → Nat
  | .success _ r => r.originalSize
  | .failure _ _ => 0

/-- `f.compressedSize || 0` as read by the batch route's totals. -/
def FileEntry.compSize : FileEntry → Nat
  | .success _ r => r.compressedSize
  | .failure _ _ => 0

/-- The per-file body of `compressBatch`'s loop
(src/services/compressionService.js:359-388): the `switch` on
`getFileTypeCategory` dispatches for the four known categories and throws
`Unsupported file type: unknown` otherwise; the surrounding `try` turns any
throw (the `default` case or the capability rejecting) into a failure record
and lets the loop continue. -/
def processFile (f : BatchFile) : FileEntry :=
  if getFileTypeCategory f.filename = "unknown" then
    FileEntry.failure f.filename "Unsupported file type: unknown"
  else
    match f.capability with
    | Except.ok r => FileEntry.success f.filename r
    | Except.error m => FileEntry.failure f.filename m

/-- The guard `results.length > 1 && options.createArchive`
(src/services/compressionService.js:392); `results` holds one entry per
input file, so its length is the number of input files. -/
def archiveStepInvoked (files : List BatchFile) (createArchive : Bool) : Bool :=
  decide (1 < files.length) && createArchive

/-- The aggregate object `compressBatch` resolves with. -/
structure BatchResult where
  files : List FileEntry
  archive : Option String
  totalFiles : Nat
  successfulFiles : Nat
  failedFiles : Nat
deriving Repr, DecidableEq

/-- `compressBatch` (src/services/compressionService.js:347-428).
`archiveResult` is the outcome of the awaited `createArchive` call when it
is reached (`Except.error m` models rejection).  A rejection is caught by
the function's outer `try`, which rethrows `Batch compression failed: m` —
the whole batch call fails. -/
def compressBatch (files : List BatchFile) (createArchive : Bool)
    (archiveResult : Except String String) : Except String BatchResult :=
  let results := files.map processFile
  let total := files.length
  if archiveStepInvoked files createArchive then
    match archiveResult with
    | Except.ok archivePath =>
        Except.ok
          { files := results
            archive := some archivePath
            totalFiles := total
            successfulFiles := (results.filter (fun r => !r.failed)).length
            failedFiles := (results.filter (fun r => r.failed)).length }
    | Except.error m => Except.error ("Batch compression failed: " ++ m)
  else
    Except.ok
      { files := results
        archive := none
        totalFiles := total
        successfulFiles := (results.filter (fun r => !r.failed)).length
        failedFiles := (results.filter (fun r => r.failed)).length }

/-- The files `createArchive` (src/services/compressionService.js:449-455)
adds to the archive: each result with `!result.failed &&
result.compressedPath` (an empty path is falsy) contributes its
`compressedPath`. -/
def archiveEntry : FileEntry → Option String
  | FileEntry.success _ r =>
    if r.compressedPath = "" then none else some r.compressedPath
  | FileEntry.failure _ _ => none

/-- The list of files `createArchive`'s loop adds, one `archiveEntry` per
result. -/
def createArchiveEntries (results : List FileEntry) : List String :=
  results.filterMap archiveEntry

/-- The `progress` percentages `compressBatch` itself publishes, in order:
`Math.round((i / total) * 90)` before file `i` (the comment in the source
reads `Reserve 10% for archiving` and the factor is 90 unconditionally),
then `95` and `100` around the archive step when it is invoked (the final
`100` is not reached if `createArchive` rejects), else a single final
`100`.  The per-file compressors publish further events of their own; those
belong to the transcoder capability, not to the orchestrator. -/
def batchProgress (files : List BatchFile) (createArchive : Bool)
    (archiveResult : Except String String) : List ℤ :=
  ((List.range files.length).map fun i : ℕ =>
      jsRound ((i : ℚ) / (files.length : ℚ) * 90)) ++
    (if archiveStepInvoked files createArchive then
      match archiveResult with
      | Except.ok _ => ([95, 100] : List ℤ)
      | Except.error _ => [95]
    else [100])

/-- The summary block computed by the `POST /api/compress/batch` route
(src/routes/compress.js:167-188) from a `compressBatch` aggregate. -/
structure BatchSummary where
  totalFiles : Nat
  successfulFiles : Nat
  failedFiles : Nat
  totalOriginalSize : Nat
  totalCompressedSize : Nat
  totalSaved : ℤ
  overallRatio : ℤ
deriving Repr, DecidableEq

/-- The route's totals: sums over the non-failed entries, `totalSaved =
totalOriginalSize - totalCompressedSize`, and `overallRatio =
totalOriginalSize > 0 ? Math.round((totalSaved / totalOriginalSize) * 100)
: 0`. -/
def batchSummary (res : BatchResult) : BatchSummary :=
  let successfulFiles := res.files.filter (fun f => !f.failed)
  let totalOriginalSize := (successfulFiles.map FileEntry.origSize).sum
  let totalCompressedSize := (successfulFiles.map FileEntry.compSize).sum
  let totalSaved : ℤ := (totalOriginalSize : ℤ) - (totalCompressedSize : ℤ)
  { totalFiles := res.totalFiles
    successfulFiles := res.successfulFiles
    failedFiles := res.failedFiles
    totalOriginalSize := totalOriginalSize
    totalCompressedSize := totalCompressedSize
    totalSaved := totalSaved
    overallRatio :=
      if 0 < totalOriginalSize then
        jsRound ((totalSaved : ℚ) / (totalOriginalSize : ℚ) * 100)
      else 0 }

/-- The size/ratio tail of `compressImage`
(src/services/compressionService.js:88-91): both sizes come from
`getFileSize`, the ratio from `calculateCompressionRatio`. -/
def compressImageSizes (statInput statOutput : Option Nat) : Nat × Nat × ℤ :=
  let originalSize := getFileSize statInput
  let compressedSize := getFileSize statOutput
  (originalSize, compressedSize,
    calculateCompressionRatio (originalSize : ℤ) (compressedSize : ℤ))

/-- The socket.io room state maintained by `setupWebSocket`
(src/server.js): the set of (socket, room) memberships created by the
`join-job` handler.  Rooms are keyed by job id. -/
structure Channel where
  subs : List (Nat × String)
deriving Repr, DecidableEq

/-- The `join-job` handler: `socket.join(jobId)`.  socket.io room
membership is a set, so joining twice has the effect of once. -/
def joinJob (ch : Channel) (obs : Nat) (jobId : String) : Channel :=
  if (obs, jobId) ∈ ch.subs then ch else ⟨(obs, jobId) :: ch.subs⟩

/-- The `leave-job` handler: `socket.leave(jobId)`. -/
def leaveJob (ch : Channel) (obs : Nat) (jobId : String) : Channel :=
  ⟨ch.subs.filter (fun p => !(decide (p = (obs, jobId))))⟩

/-- The recipients of `io.to(jobId).emit(...)`: the sockets currently in
room `jobId`. -/
def roomMembers (ch : Channel) (jobId : String) : List Nat :=
  (ch.subs.filter (fun p => p.2 = jobId)).map Prod.fst

/-- `emitProgress` (src/server.js, WebSocket utilities): `if (!io ||
!jobId) return;` then `io.to(jobId).emit('progress', payload)`.  Returns
the (unchanged) room state and the list of sockets the event was delivered
to; `jobId = none` models a missing id and the empty string is falsy in
JavaScript. -/
def emitProgress (io : Bool) (ch : Channel) (jobId : Option String) :
    Channel × List Nat :=
  if io = false then (ch, [])
  else
    match jobId with
    | none => (ch, [])
    | some j => if j = "" then (ch, []) else (ch, roomMembers ch j)

/-- `emitStatus` (src/server.js, WebSocket utilities): same guard and same
`io.to(jobId).emit('status', payload)` fan-out as `emitProgress`. -/
def emitStatus (io : Bool) (ch : Channel) (jobId : Option String) :
    Channel × List Nat :=
  if io = false then (ch, [])
  else
    match jobId with
    | none => (ch, [])
    | some j => if j = "" then (ch, []) else (ch, roomMembers ch j)

/-! ## Helper lemmas -/

theorem jsRound_le_jsRound {q r : ℚ} (h : q ≤ r) : jsRound q ≤ jsRound r :=
  Int.floor_le_floor (by linarith)

theorem jsRound_eq_of {q : ℚ} {n : ℤ} (h1 : (n : ℚ) ≤ q + 1 / 2)
    (h2 : q + 1 / 2 < n + 1) : jsRound q = n := by
  rw [jsRound]
  exact Int.floor_eq_iff.mpr ⟨h1, by linarith⟩

theorem filter_length_partition {α : Type} (l : List α) (p : α → Bool) :
    (l.filter fun a => !(p a)).length + (l.filter p).length = l.length := by
  induction l with
  | nil => rfl
  | cons a l ih => by_cases h : p a <;> simp [List.filter_cons, h, ← ih] <;> omega

/-! ## Claim theorems -/

/-- C6: `calculateCompressionRatio` returns 0 when the original size is 0
and otherwise `round((original - compressed) / original * 100)`; in
particular it maps `(0, x)` to 0 for every `x`, `(100, 50)` to 50, and
`(100, 150)` to -50 — a negative ratio is a legal result. -/
theorem calculateCompressionRatio_spec :
    (∀ x : ℤ, calculateCompressionRatio 0 x = 0) ∧
    calculateCompressionRatio 100 50 = 50 ∧
    calculateCompressionRatio 100 150 = -50 ∧
    (∀ o c : ℤ, o ≠ 0 →
      calculateCompressionRatio o c = jsRound (((o : ℚ) - (c : ℚ)) / (o : ℚ) * 100)) := by
  refine ⟨fun x => by simp [calculateCompressionRatio], ?_, ?_, fun o c ho => by
    simp [calculateCompressionRatio, ho]⟩
  · rw [calculateCompressionRatio, if_neg (by decide)]
    exact jsRound_eq_of (by norm_num) (by norm_num)
  · rw [calculateCompressionRatio, if_neg (by decide)]
    exact jsRound_eq_of (by norm_num) (by norm_num)

/-- C6 witness: the general formula at the concrete input `(7, 3)`. -/
theorem calculateCompressionRatio_spec_witness :
    calculateCompressionRatio 7 3 = jsRound (((7 : ℚ) - (3 : ℚ)) / (7 : ℚ) * 100) :=
  calculateCompressionRatio_spec.2.2.2 7 3 (by decide)

/-- C10 counterexample: when the input file cannot be statted either, the
original size is reported as 0, so the compression result of an unstattable
output carries a ratio of 0, not the claimed 100. -/
theorem compressImageSizes_ratio_counterexample :
    compressImageSizes none none = (0, 0, 0) ∧ (0 : ℤ) ≠ 100 := by
  constructor
  · decide
  · decide

/-- C10 amended: `getFileSize` is total — the byte count when `fs.stat`
succeeds, 0 when it fails — and a compression result whose output file
cannot be statted reports `compressedSize = 0` with a ratio of 100 when the
reported original size is positive (the ratio is 0 when the original size
is also reported as 0). -/
theorem getFileSize_total_spec :
    (∀ n : Nat, getFileSize (some n) = n) ∧
    getFileSize none = 0 ∧
    (∀ s : Option Nat, 0 < getFileSize s →
      compressImageSizes s none = (getFileSize s, 0, 100)) := by
  refine ⟨fun n => rfl, rfl, fun s hs => ?_⟩
  have ho : (getFileSize s : ℤ) ≠ 0 := by
    exact_mod_cast Nat.pos_iff_ne_zero.mp hs
  have ho' : (getFileSize s : ℚ) ≠ 0 := by exact_mod_cast ho
  rw [compressImageSizes]
  refine Prod.ext rfl (Prod.ext rfl ?_)
  show calculateCompressionRatio (getFileSize s : ℤ) ((getFileSize none : Nat) : ℤ) = 100
  rw [getFileSize, calculateCompressionRatio, if_neg ho]
  rw [show (((0 : Nat) : ℤ) : ℚ) = 0 by norm_num]
  rw [sub_zero, div_self (show ((getFileSize s : ℤ) : ℚ) ≠ 0 by exact_mod_cast ho), one_mul]
  exact jsRound_eq_of (by norm_num) (by norm_num)

/-- C10 witness: the amended consequence at original size 5. -/
theorem getFileSize_total_spec_witness :
    compressImageSizes (some 5) none = (getFileSize (some 5), 0, 100) :=
  getFileSize_total_spec.2.2 (some 5) (by decide)

/-- C3 counterexample: two successfully compressed files, archiving
requested, and the archive step rejecting with `disk full`: `compressBatch`
rethrows a job-level `Batch compression failed` error — no aggregate with
the individual file results is returned, contradicting the claim that the
archive failure is downgraded to a separate error field. -/
theorem compressBatch_archiveFailure_counterexample :
    compressBatch
        [⟨"a.jpg", Except.ok ⟨1000, 400, 60, "ac.jpg"⟩⟩,
         ⟨"c.png", Except.ok ⟨2000, 900, 55, "cc.png"⟩⟩]
        true (Except.error "disk full")
      = Except.error "Batch compression failed: disk full" := by
  decide

/-- C3 amended: whenever the archive step is invoked (more than one input
file and archiving requested) and `createArchive` rejects with message `m`,
`compressBatch` fails as a whole with `Batch compression failed: m`; the
individual per-file results are not returned. -/
theorem compressBatch_archiveFailure :
    ∀ (files : List BatchFile) (m : String),
      archiveStepInvoked files true = true →
      compressBatch files true (Except.error m) =
        Except.error ("Batch compression failed: " ++ m) := by
  intro files m h
  rw [compressBatch]
  simp [h]

/-- C3 witness: the amended theorem at a concrete two-file batch. -/
theorem compressBatch_archiveFailure_witness :
    compressBatch
        [⟨"x.pdf", Except.ok ⟨10, 10, 0, "xc.pdf"⟩⟩,
         ⟨"y.pdf", Except.ok ⟨20, 20, 0, "yc.pdf"⟩⟩]
        true (Except.error "ENOSPC") =
      Except.error ("Batch compression failed: " ++ "ENOSPC") :=
  compressBatch_archiveFailure _ "ENOSPC" (by decide)

/-- C9: publishing to a job id with zero subscribed observers is a no-op:
both `emitProgress` and `emitStatus` return normally, deliver the event to
no observer, and leave the room state unchanged. -/
theorem publish_no_subscribers :
    ∀ (ch : Channel) (io : Bool) (j : String),
      (∀ p ∈ ch.subs, p.2 ≠ j) →
      emitProgress io ch (some j) = (ch, []) ∧
      emitStatus io ch (some j) = (ch, []) := by
  intro ch io j hnone
  have hmembers : roomMembers ch j = [] := by
    rw [roomMembers]
    have : ch.subs.filter (fun p => p.2 = j) = [] := by
      rw [List.filter_eq_nil_iff]
      intro p hp
      simpa using hnone p hp
    rw [this]
    rfl
  constructor
  · rw [emitProgress]
    cases io with
    | false => rfl
    | true =>
      simp only [if_neg (by decide : ¬(true = false))]
      by_cases hj : j = ""
      · simp [hj]
      · simp [hj, hmembers]
  · rw [emitStatus]
    cases io with
    | false => rfl
    | true =>
      simp only [if_neg (by decide : ¬(true = false))]
      by_cases hj : j = ""
      · simp [hj]
      · simp [hj, hmembers]

/-- C9 witness: publishing under job id `B` on a channel whose only
subscription is to job id `A`. -/
theorem publish_no_subscribers_witness :
    emitProgress true ⟨[(1, "A")]⟩ (some "B") = (⟨[(1, "A")]⟩, []) ∧
    emitStatus true ⟨[(1, "A")]⟩ (some "B") = (⟨[(1, "A")]⟩, []) :=
  publish_no_subscribers ⟨[(1, "A")]⟩ true "B" (by decide)

/-- C1: a per-file failure is recorded as a failure record and the loop
continues — every batch aggregate that is returned has `totalFiles = N` and
`successfulFiles + failedFiles = N`, with one result entry per input file
in order; the concrete three-file batch whose second file's transcoder
throws yields `totalFiles = 3, successfulFiles = 2, failedFiles = 1`, the
failed file carrying an error record and no compression result. -/
theorem compressBatch_failure_isolation :
    (∀ (files : List BatchFile) (cA : Bool) (aR : Except String String)
        (res : BatchResult),
        compressBatch files cA aR = Except.ok res →
          res.totalFiles = files.length ∧
          res.successfulFiles + res.failedFiles = files.length ∧
          res.files = files.map processFile) ∧
    (∀ (f : BatchFile) (m : String),
        getFileTypeCategory f.filename ≠ "unknown" →
        f.capability = Except.error m →
        processFile f = FileEntry.failure f.filename m) ∧
    compressBatch
        [⟨"a.jpg", Except.ok ⟨1000, 400, 60, "ac.jpg"⟩⟩,
         ⟨"b.jpg", Except.error "codec error"⟩,
         ⟨"c.png", Except.ok ⟨2000, 900, 55, "cc.png"⟩⟩]
        false (Except.ok "unused")
      = Except.ok
        { files := [FileEntry.success "a.jpg" ⟨1000, 400, 60, "ac.jpg"⟩,
                    FileEntry.failure "b.jpg" "codec error",
                    FileEntry.success "c.png" ⟨2000, 900, 55, "cc.png"⟩],
          archive := none, totalFiles := 3,
          successfulFiles := 2, failedFiles := 1 } := by
  refine ⟨?_, ?_, by decide⟩
  · intro files cA aR res h
    have hlen := filter_length_partition (files.map processFile) FileEntry.failed
    rw [List.length_map] at hlen
    simp only [compressBatch] at h
    by_cases hb : archiveStepInvoked files cA = true
    · rw [if_pos hb] at h
      cases aR with
      | ok p =>
        injection h with h
        subst h
        exact ⟨rfl, hlen, rfl⟩
      | error m => exact Except.noConfusion h
    · rw [if_neg hb] at h
      injection h with h
      subst h
      exact ⟨rfl, hlen, rfl⟩
  · intro f m hcat hcap
    rw [processFile, if_neg hcat, hcap]

/-- C1 witness: a supported file whose transcoder throws is recorded as a
failure record, and the empty batch satisfies the aggregate equations. -/
theorem compressBatch_failure_isolation_witness :
    processFile ⟨"bad.wav", Except.error "ffmpeg exited with code 1"⟩ =
      FileEntry.failure "bad.wav" "ffmpeg exited with code 1" :=
  compressBatch_failure_isolation.2.1
    ⟨"bad.wav", Except.error "ffmpeg exited with code 1"⟩
    "ffmpeg exited with code 1" (by decide) rfl

/-- C7: a filename whose extension maps to no supported category is an
immediate per-file failure record, and the job itself still returns an
aggregate result — the unknown category never makes `compressBatch` fail
as a whole (with no archiving requested, or with the archive step
succeeding, `compressBatch` always returns `Except.ok`). -/
theorem unsupportedCategory_spec :
    (∀ f : BatchFile, getFileTypeCategory f.filename = "unknown" →
        processFile f = FileEntry.failure f.filename "Unsupported file type: unknown") ∧
    (∀ (files : List BatchFile) (aR : Except String String),
        ∃ res : BatchResult, compressBatch files false aR = Except.ok res ∧
          res.totalFiles = files.length) ∧
    (∀ (files : List BatchFile) (cA : Bool) (p : String),
        ∃ res : BatchResult, compressBatch files cA (Except.ok p) = Except.ok res) := by
  refine ⟨fun f h => by rw [processFile, if_pos h], ?_, ?_⟩
  · intro files aR
    refine ⟨{ files := files.map processFile, archive := none,
              totalFiles := files.length,
              successfulFiles := ((files.map processFile).filter (fun r => !r.failed)).length,
              failedFiles := ((files.map processFile).filter (fun r => r.failed)).length },
            ?_, rfl⟩
    have hb : archiveStepInvoked files false = false := by
      simp [archiveStepInvoked]
    simp only [compressBatch, hb, Bool.false_eq_true, if_false]
  · intro files cA p
    by_cases hb : archiveStepInvoked files cA = true
    · refine ⟨⟨files.map processFile, some p, files.length,
        ((files.map processFile).filter (fun r => !r.failed)).length,
        ((files.map processFile).filter (fun r => r.failed)).length⟩, ?_⟩
      simp only [compressBatch, hb, if_true]
    · refine ⟨⟨files.map processFile, none, files.length,
        ((files.map processFile).filter (fun r => !r.failed)).length,
        ((files.map processFile).filter (fun r => r.failed)).length⟩, ?_⟩
      simp only [compressBatch]
      rw [if_neg hb]

/-- C7 witness: a `.rar` file (unsupported category) fails immediately with
the unsupported-type message. -/
theorem unsupportedCategory_spec_witness :
    processFile ⟨"archive.rar", Except.ok ⟨1, 1, 0, "p"⟩⟩ =
      FileEntry.failure "archive.rar" "Unsupported file type: unknown" :=
  unsupportedCategory_spec.1 ⟨"archive.rar", Except.ok ⟨1, 1, 0, "p"⟩⟩ (by decide)

/-- C8: topic isolation of the progress channel — an observer whose only
room memberships are for job id `A` is never among the recipients of an
event published under a different job id `B`. -/
theorem topic_isolation :
    ∀ (ch : Channel) (obs : Nat) (A B : String) (io : Bool),
      B ≠ A →
      (∀ j : String, (obs, j) ∈ ch.subs → j = A) →
      obs ∉ (emitProgress io ch (some B)).2 := by
  intro ch obs A B io hBA hsub hmem
  rw [emitProgress] at hmem
  cases io with
  | false => simp at hmem
  | true =>
    rw [if_neg (by decide)] at hmem
    by_cases hB : B = ""
    · rw [if_pos hB] at hmem
      simp at hmem
    · rw [if_neg hB] at hmem
      simp only [roomMembers, List.mem_map, List.mem_filter] at hmem
      obtain ⟨⟨o, j⟩, ⟨hp, hj⟩, ho⟩ := hmem
      simp only [decide_eq_true_eq] at hj
      cases ho
      cases hj
      exact hBA (hsub _ hp)

/-- C8 witness: the observer who joined only job `jobA` receives nothing
published under `jobB`. -/
theorem topic_isolation_witness :
    1 ∉ (emitProgress true (joinJob ⟨[]⟩ 1 "jobA") (some "jobB")).2 :=
  topic_isolation (joinJob ⟨[]⟩ 1 "jobA") 1 "jobA" "jobB" true (by decide)
    (fun j hj => by simpa [joinJob] using hj)

/-- C4 counterexample: a two-file batch in which only one file succeeds
(the other has an unsupported extension) with archiving requested: the
archive step is still invoked — the guard counts input files, not
successful files — refuting "invoked exactly when more than one file
succeeded". -/
theorem archive_invocation_counterexample :
    archiveStepInvoked
        [⟨"notes.txt", Except.error "never dispatched"⟩,
         ⟨"a.jpg", Except.ok ⟨1000, 400, 60, "ac.jpg"⟩⟩] true = true ∧
    compressBatch
        [⟨"notes.txt", Except.error "never dispatched"⟩,
         ⟨"a.jpg", Except.ok ⟨1000, 400, 60, "ac.jpg"⟩⟩]
        true (Except.ok "compressed_files.zip")
      = Except.ok
        { files := [FileEntry.failure "notes.txt" "Unsupported file type: unknown",
                    FileEntry.success "a.jpg" ⟨1000, 400, 60, "ac.jpg"⟩],
          archive := some "compressed_files.zip",
          totalFiles := 2, successfulFiles := 1, failedFiles := 1 } ∧
    ¬(1 < 1) := by
  refine ⟨by decide, by decide, by decide⟩

/-- C4 amended: the archive step is invoked exactly when the batch holds
more than one input file (successful or not) and archiving was requested;
the produced archive contains precisely the outputs of the non-failed
results (those with a non-empty output path). -/
theorem archive_invocation_spec :
    (∀ (files : List BatchFile) (cA : Bool),
        archiveStepInvoked files cA = true ↔ 1 < files.length ∧ cA = true) ∧
    (∀ (results : List FileEntry) (p : String),
        p ∈ createArchiveEntries results ↔
          ∃ n r, FileEntry.success n r ∈ results ∧
            r.compressedPath = p ∧ p ≠ "") := by
  constructor
  · intro files cA
    simp [archiveStepInvoked]
  · intro results p
    rw [createArchiveEntries, List.mem_filterMap]
    constructor
    · rintro ⟨e, he, hfe⟩
      cases e with
      | success n r =>
        rw [archiveEntry] at hfe
        by_cases hp : r.compressedPath = ""
        · rw [if_pos hp] at hfe
          exact Option.noConfusion hfe
        · rw [if_neg hp] at hfe
          injection hfe with hfe
          exact ⟨n, r, he, hfe, hfe ▸ hp⟩
      | failure n m => exact Option.noConfusion hfe
    · rintro ⟨n, r, hmem, hpath, hne⟩
      refine ⟨FileEntry.success n r, hmem, ?_⟩
      rw [archiveEntry, if_neg (hpath ▸ hne), hpath]

/-- C4 witness: the invocation guard holds for a concrete two-file batch
with archiving requested. -/
theorem archive_invocation_spec_witness :
    archiveStepInvoked
        [⟨"a.jpg", Except.ok ⟨1, 1, 0, "p"⟩⟩,
         ⟨"b.jpg", Except.ok ⟨1, 1, 0, "q"⟩⟩] true = true :=
  (archive_invocation_spec.1 _ true).mpr ⟨by decide, rfl⟩

/-- Shape of every aggregate `compressBatch` returns successfully. -/
theorem compressBatch_ok_shape (files : List BatchFile) (cA : Bool)
    (aR : Except String String) (res : BatchResult)
    (h : compressBatch files cA aR = Except.ok res) :
    res.totalFiles = files.length ∧
    res.successfulFiles = ((files.map processFile).filter (fun r => !r.failed)).length ∧
    res.failedFiles = ((files.map processFile).filter (fun r => r.failed)).length ∧
    res.files = files.map processFile := by
  simp only [compressBatch] at h
  by_cases hb : archiveStepInvoked files cA = true
  · rw [if_pos hb] at h
    cases aR with
    | ok p =>
      injection h with h
      subst h
      exact ⟨rfl, rfl, rfl, rfl⟩
    | error m => exact Except.noConfusion h
  · rw [if_neg hb] at h
    injection h with h
    subst h
    exact ⟨rfl, rfl, rfl, rfl⟩

/-- C5: the route's aggregate totals are the sums of original and
compressed sizes over the non-failed entries, the succeeded and failed
counts, `totalSaved = Σoriginal - Σcompressed`, and `overallRatio =
round((Σoriginal - Σcompressed) / Σoriginal * 100)` with ratio 0 when
`Σoriginal = 0`. -/
theorem batch_totals_spec :
    (∀ res : BatchResult,
        (batchSummary res).totalOriginalSize =
          ((res.files.filter fun f => !f.failed).map FileEntry.origSize).sum ∧
        (batchSummary res).totalCompressedSize =
          ((res.files.filter fun f => !f.failed).map FileEntry.compSize).sum ∧
        (batchSummary res).totalSaved =
          ((batchSummary res).totalOriginalSize : ℤ) -
            ((batchSummary res).totalCompressedSize : ℤ) ∧
        (batchSummary res).overallRatio =
          (if (batchSummary res).totalOriginalSize = 0 then 0
           else jsRound ((((batchSummary res).totalOriginalSize : ℚ) -
              ((batchSummary res).totalCompressedSize : ℚ)) /
              ((batchSummary res).totalOriginalSize : ℚ) * 100))) ∧
    (∀ (files : List BatchFile) (cA : Bool) (aR : Except String String)
        (res : BatchResult),
        compressBatch files cA aR = Except.ok res →
          (batchSummary res).totalFiles = files.length ∧
          (batchSummary res).successfulFiles =
            (res.files.filter fun f => !f.failed).length ∧
          (batchSummary res).failedFiles =
            (res.files.filter fun f => f.failed).length ∧
          (batchSummary res).successfulFiles + (batchSummary res).failedFiles =
            files.length) := by
  constructor
  · intro res
    refine ⟨rfl, rfl, rfl, ?_⟩
    simp only [batchSummary]
    by_cases h0 : ((res.files.filter fun f => !f.failed).map FileEntry.origSize).sum = 0
    · rw [if_neg (by omega), if_pos h0]
    · rw [if_pos (by omega), if_neg h0]
      generalize ((res.files.filter fun f => !f.failed).map FileEntry.origSize).sum = a at h0 ⊢
      generalize ((res.files.filter fun f => !f.failed).map FileEntry.compSize).sum = b
      congr 1
      push_cast
      ring
  · intro files cA aR res h
    have hiso := compressBatch_ok_shape files cA aR res h
    obtain ⟨ht, hs, hf, hfl⟩ := hiso
    refine ⟨?_, ?_, ?_, ?_⟩
    · exact ht
    · show res.successfulFiles = _
      rw [hs, hfl]
    · show res.failedFiles = _
      rw [hf, hfl]
    · show res.successfulFiles + res.failedFiles = _
      rw [hs, hf]
      have := filter_length_partition (files.map processFile) FileEntry.failed
      rw [List.length_map] at this
      exact this

/-- C5 witness: the summary equations at a concrete one-file batch. -/
theorem batch_totals_spec_witness :
    (batchSummary
        { files := [FileEntry.success "a.jpg" ⟨1000, 400, 60, "p"⟩],
          archive := none, totalFiles := 1,
          successfulFiles := 1, failedFiles := 0 }).totalFiles =
      [(⟨"a.jpg", Except.ok ⟨1000, 400, 60, "p"⟩⟩ : BatchFile)].length :=
  (batch_totals_spec.2 [⟨"a.jpg", Except.ok ⟨1000, 400, 60, "p"⟩⟩]
    false (Except.ok "z") _ (by decide)).1

/-- Each batch-loop percentage is at most 90. -/
theorem loopPercent_le_90 (N i : Nat) (h : i < N) :
    jsRound ((i : ℚ) / (N : ℚ) * 90) ≤ 90 := by
  have hN : (0 : ℚ) < (N : ℚ) := by
    exact_mod_cast Nat.pos_of_ne_zero (by omega)
  have hi : (i : ℚ) ≤ (N : ℚ) := by exact_mod_cast Nat.le_of_lt h
  have hq : (i : ℚ) / (N : ℚ) * 90 ≤ 90 := by
    have h1 : (i : ℚ) / (N : ℚ) ≤ 1 := (div_le_one hN).mpr hi
    nlinarith
  calc jsRound ((i : ℚ) / (N : ℚ) * 90) ≤ jsRound 90 := jsRound_le_jsRound hq
    _ = 90 := jsRound_eq_of (by norm_num) (by norm_num)

/-- Batch-loop percentages are monotone in the file index. -/
theorem loopPercent_mono (N : Nat) {i j : Nat} (hij : i ≤ j) :
    jsRound ((i : ℚ) / (N : ℚ) * 90) ≤ jsRound ((j : ℚ) / (N : ℚ) * 90) := by
  apply jsRound_le_jsRound
  rcases Nat.eq_zero_or_pos N with h0 | hpos
  · simp [h0]
  · have hN : (0 : ℚ) < (N : ℚ) := by exact_mod_cast hpos
    have hij' : (i : ℚ) ≤ (j : ℚ) := by exact_mod_cast hij
    gcongr

/-- The batch-loop percentage list is a non-decreasing chain. -/
theorem loop_chain' (N : Nat) :
    List.Chain' (· ≤ ·)
      ((List.range N).map fun i : ℕ => jsRound ((i : ℚ) / (N : ℚ) * 90)) := by
  rw [List.chain'_map]
  cases N with
  | zero => simp
  | succ n =>
    rw [List.chain'_range_succ]
    intro m _
    exact loopPercent_mono (n + 1) (Nat.le_succ m)

/-- C2 counterexample: for a two-file batch with no archive requested, the
percentage emitted before file index 1 is `round(1/2·90) = 45`; the claim's
reserve-100 formula for the no-archive case predicts `round(1/2·100) = 50`.
-/
theorem batchProgress_reserve_counterexample :
    batchProgress
        [⟨"a.jpg", Except.ok ⟨1000, 400, 60, "p"⟩⟩,
         ⟨"b.jpg", Except.ok ⟨2000, 900, 55, "q"⟩⟩]
        false (Except.ok "z") = [0, 45, 100] ∧
    jsRound ((1 : ℚ) / 2 * 100) = 50 ∧ (45 : ℤ) ≠ 50 := by
  refine ⟨?_, jsRound_eq_of (by norm_num) (by norm_num), by decide⟩
  have h0 : jsRound 0 = 0 := jsRound_eq_of (by norm_num) (by norm_num)
  simp [batchProgress, archiveStepInvoked, List.range_succ, h0]
  exact jsRound_eq_of (by norm_num) (by norm_num)

/-- C2 amended: the percentage published before the file at index `i` is
`round(i/N · 90)` whether or not archiving was requested (the reserve is
always 90); with no archive requested the batch-level percentage sequence
is monotonically non-decreasing and ends at 100. -/
theorem batchProgress_spec :
    (∀ (files : List BatchFile) (cA : Bool) (aR : Except String String)
        (i : Nat), i < files.length →
        (batchProgress files cA aR)[i]? =
          some (jsRound ((i : ℚ) / (files.length : ℚ) * 90))) ∧
    (∀ (files : List BatchFile) (aR : Except String String),
        List.Chain' (· ≤ ·) (batchProgress files false aR) ∧
        (batchProgress files false aR).getLast? = some 100) := by
  constructor
  · intro files cA aR i hi
    rw [batchProgress.eq_def]
    rw [List.getElem?_append_left (by simpa using hi)]
    rw [List.getElem?_map, List.getElem?_range hi]
    rfl
  · intro files aR
    have hinv : archiveStepInvoked files false = false := by
      simp [archiveStepInvoked]
    have hform : batchProgress files false aR =
        ((List.range files.length).map fun i : ℕ =>
          jsRound ((i : ℚ) / (files.length : ℚ) * 90)) ++ [100] := by
      rw [batchProgress.eq_def, hinv]
      rfl
    rw [hform]
    constructor
    · apply List.Chain'.append (loop_chain' files.length)
        (List.chain'_singleton 100)
      intro x hx y hy
      have hx' : x ∈ (List.range files.length).map fun i : ℕ =>
          jsRound ((i : ℚ) / (files.length : ℚ) * 90) :=
        List.mem_of_getLast?_eq_some (Option.mem_def.mp hx)
      obtain ⟨i, hi, hfi⟩ := List.mem_map.mp hx'
      have hy' : (100 : ℤ) = y := by simpa using hy
      subst hy'
      rw [← hfi]
      exact le_trans (loopPercent_le_90 files.length i (List.mem_range.mp hi))
        (by norm_num)
    · exact List.getLast?_concat _

/-- C2 witness: the per-index formula at index 0 of a one-file batch. -/
theorem batchProgress_spec_witness :
    (batchProgress [⟨"a.jpg", Except.ok ⟨1, 1, 0, "p"⟩⟩] false
        (Except.ok "z"))[0]? =
      some (jsRound (((0 : Nat) : ℚ) /
        (([(⟨"a.jpg", Except.ok ⟨1, 1, 0, "p"⟩⟩ : BatchFile)].length : ℕ) : ℚ) * 90)) :=
  batchProgress_spec.1 [⟨"a.jpg", Except.ok ⟨1, 1, 0, "p"⟩⟩] false
    (Except.ok "z") 0 (by decide)
